import Mathlib

/-!
Shallow embedding of the Gemini-Personal-Chat front end.

Data model from `src/models.ts`; operations from `app.component.ts`
(session store, file attachment pipeline, streaming send orchestrator,
conversation history builder) and `src/pipes/markdown.pipe.ts`.
JavaScript strings become Lean `String` (decoded text file content is
modelled as `List Char` so that counting properties can be reasoned
about), `null`/`undefined` become `Option`, and signal state becomes an
explicit `AppState` record threaded through each operation.
-/

set_option maxHeartbeats 1000000

/-- `ChatMessage.role` field: the literal union `'user' | 'ai'`. -/
inductive Role
  | user
  | ai
deriving DecidableEq, Repr

/-- `FileMetadata` from `src/models.ts`. -/
structure FileMetadata where
  name : String
  size : Nat
  type : String
  wordCount : Nat
  charCount : Nat
  base64Content : Option String
  pageCount : Option Nat
deriving DecidableEq, Repr

/-- `ChatMessage` from `src/models.ts`. -/
structure ChatMessage where
  role : Role
  text : String
  fileInfo : Option FileMetadata := none
deriving DecidableEq, Repr

/-- `ChatSession` from `src/models.ts` (`createdAt : Date` becomes a `Nat`
timestamp). -/
structure ChatSession where
  id : String
  title : String
  messages : List ChatMessage
  createdAt : Nat
deriving DecidableEq, Repr

/-- A browser `File` as the component consumes it: declared name, byte
size, declared MIME type, the decoded text content (what `file.text()`
yields, as a character sequence), and the base64 rendering of the raw
bytes (what `fileToBase64` yields via `FileReader.readAsDataURL`). -/
structure BrowserFile where
  name : String
  size : Nat
  type : String
  text : List Char
  base64 : String
deriving DecidableEq, Repr

/-- One content part of a model-API turn (`@google/genai` `Part`):
either `{ text }` or `{ inlineData: { mimeType, data } }`. -/
inductive ContentPart
  | text (s : String)
  | inlineData (mimeType : String) (data : String)
deriving DecidableEq, Repr

/-- A model-API turn (`@google/genai` `Content`): role tag plus parts. -/
structure Content where
  role : String
  parts : List ContentPart
deriving DecidableEq, Repr

/-- The component's signal state (`AppComponent` fields). -/
structure AppState where
  chatSessions : List ChatSession
  activeSessionId : Option String
  isLoading : Bool
  currentPrompt : String
  attachedFile : Option BrowserFile
  fileMetadata : Option FileMetadata
  error : Option String
deriving DecidableEq, Repr

/-- `const MAX_FILE_SIZE = 5 * 1024 * 1024` in `handleFileChange`. -/
def MAX_FILE_SIZE : Nat := 5 * 1024 * 1024

/-- Error string set by `handleFileChange` for an oversize file
(the template literal evaluates to `5`). -/
def oversizeMsg : String := "File is too large. Max size is 5MB."

/-- Error string set by `processFile` when PDF page counting throws. -/
def pdfErrorMsg : String := "Could not read page count from the PDF file."

/-- Error string set by `sendMessage`'s defensive no-session branch. -/
def noSessionMsg : String := "Could not create or find a chat session."

/-- Error string set by `sendMessage`'s catch block. -/
def commErrorMsg : String :=
  "An error occurred while communicating with the AI. Please check your setup and try again."

/-- Apology string written into the AI placeholder by the catch block. -/
def apologyMsg : String := "Sorry, I encountered an error. Please try again."

/-- Default session title used by `startNewChat` and as final fallback. -/
def genericTitle : String := "New Conversation"

/-! ## Conversation history builder (`buildHistory`) -/

/-- The body of `buildHistory`'s `map`: parts start as `[{ text }]`; when
the message is a user message whose `fileInfo.base64Content` is present
and truthy (JavaScript `&&` chain: the empty string is falsy and is
skipped), an `inlineData` part is `unshift`ed in front. The role tag maps
`'ai'` to `'model'` and anything else to `'user'`. -/
def msgToContent (msg : ChatMessage) : Content :=
  let parts : List ContentPart := [ContentPart.text msg.text]
  let parts :=
    match msg.role, msg.fileInfo with
    | Role.user, some fi =>
      match fi.base64Content with
      | some d => if d = "" then parts else ContentPart.inlineData fi.type d :: parts
      | none => parts
    | _, _ => parts
  { role := if msg.role = Role.ai then "model" else "user", parts := parts }

/-- `buildHistory`: `messages.slice(0, -2).map(...)` — all but the last
two messages, each mapped to a turn. -/
def buildHistory (messages : List ChatMessage) : List Content :=
  (messages.take (messages.length - 2)).map msgToContent

/-- A small concrete `FileMetadata` used by examples and witnesses. -/
def sampleMeta : FileMetadata :=
  { name := "a.txt"
    size := 1
    type := "text/plain"
    wordCount := 1
    charCount := 1
    base64Content := some "QQ=="
    pageCount := none }

example :
    buildHistory
      [ { role := Role.user, text := "hi", fileInfo := some sampleMeta },
        { role := Role.ai, text := "hello" },
        { role := Role.user, text := "next" },
        { role := Role.ai, text := "" } ] =
      [ { role := "user",
          parts := [ContentPart.inlineData "text/plain" "QQ==", ContentPart.text "hi"] },
        { role := "model", parts := [ContentPart.text "hello"] } ] := by
  decide

/-! ## Word counting (`processFile`, text branch)

The source computes `textContent.trim().split(/\s+/).filter(Boolean).length`.
On a character sequence this is: trim whitespace from both ends, split at
whitespace (a run of `k` whitespace characters contributes the same
pieces as `k` single-character separators once the empty pieces are
removed, which is exactly what `filter(Boolean)` does), keep the
non-empty pieces, count them. -/

/-- JavaScript `String.prototype.trim` on a character sequence: drop
leading and trailing whitespace. -/
def jsTrim (l : List Char) : List Char :=
  ((l.dropWhile Char.isWhitespace).reverse.dropWhile Char.isWhitespace).reverse

/-- Split at every whitespace character, keeping empty pieces (the
piece list `split` would produce before `filter(Boolean)` runs; a run of
whitespace yields interior empty pieces that the filter removes, so
post-filter this agrees with splitting on `/\s+/`). -/
def splitAtWs : List Char → List (List Char)
  | [] => [[]]
  | c :: cs =>
    if c.isWhitespace then [] :: splitAtWs cs
    else
      match splitAtWs cs with
      | [] => [[c]]
      | t :: ts => (c :: t) :: ts

/-- `trim().split(/\s+/).filter(Boolean).length` from `processFile`. -/
def jsWordCount (l : List Char) : Nat :=
  ((splitAtWs (jsTrim l)).filter (fun t => !t.isEmpty)).length

/-- JavaScript `String.prototype.trim` on a `String`, computed on the
underlying character sequence. -/
def jsTrimStr (s : String) : String :=
  String.mk (jsTrim s.data)

/-- JavaScript `s.substring(0, n)` (the first `n` characters). -/
def jsSubstring (s : String) (n : Nat) : String :=
  String.mk (s.data.take n)

/-- JavaScript `s.startsWith(p)`, computed on the character sequence. -/
def strStartsWith (s p : String) : Bool :=
  p.data.isPrefixOf s.data

/-- Specification-side counter: the number of maximal non-empty
whitespace-delimited tokens of a character sequence, computed by a
left-to-right scan that counts each transition from whitespace (or the
start) into a non-whitespace run. -/
def countTokensAux : Bool → List Char → Nat
  | _, [] => 0
  | inWord, c :: cs =>
    if c.isWhitespace then countTokensAux false cs
    else (if inWord then 0 else 1) + countTokensAux true cs

/-- Number of maximal non-empty whitespace-delimited tokens. -/
def countTokens (l : List Char) : Nat :=
  countTokensAux false l

example : countTokens "  hi   there\n world ".toList = 3 := by decide
example : countTokens "".toList = 0 := by decide
example : countTokens "   \n ".toList = 0 := by decide
example : jsWordCount "  hi   there\n world ".toList = 3 := by decide

/-! ## Session store (`startNewChat`, `selectChat`, `deleteChat`) -/

/-- The session literal allocated by `startNewChat`
(`id = chat_${Date.now()}`; the current time is a parameter). -/
def newSession (now : Nat) : ChatSession :=
  { id := "chat_" ++ toString now
    title := genericTitle
    messages := []
    createdAt := now }

/-- `resetInput`: clears the prompt and the attachment signals. -/
def resetInput (st : AppState) : AppState :=
  { st with currentPrompt := "", attachedFile := none, fileMetadata := none }

/-- `startNewChat`: front-insert a fresh session, make it active, reset
the input. -/
def startNewChat (now : Nat) (st : AppState) : AppState :=
  resetInput
    { st with
        chatSessions := newSession now :: st.chatSessions
        activeSessionId := some (newSession now).id }

/-- `selectChat`. -/
def selectChat (id : String) (st : AppState) : AppState :=
  { st with activeSessionId := some id }

/-- `chatSessions().find(s => s.id === id)`. -/
def findSession (sessions : List ChatSession) (id : String) : Option ChatSession :=
  sessions.find? (fun s => s.id == id)

/-- The `activeSession` computed signal:
`chatSessions().find(s => s.id === activeSessionId()) ?? null`. -/
def activeSession (st : AppState) : Option ChatSession :=
  match st.activeSessionId with
  | none => none
  | some id => findSession st.chatSessions id

/-- `deleteChat`: filter the session out; if it was active, fall back to
the new first session's id or `null`. -/
def deleteChat (id : String) (st : AppState) : AppState :=
  let sessions := st.chatSessions.filter (fun s => s.id != id)
  { st with
      chatSessions := sessions
      activeSessionId :=
        if st.activeSessionId = some id then
          Option.map (fun s => s.id) sessions.head?
        else st.activeSessionId }

/-! ## File attachment (`handleFileChange`, `processFile`)

`fileToBase64` and the PDF page-count extraction are browser / external
library calls; the base64 rendering is carried on `BrowserFile` and the
PDF result is an `Option Nat` parameter (`none` models the library
throwing, which the source catches). -/

/-- `processFile`: computes word/char counts for `text/*` files, asks the
PDF library for a page count for `application/pdf` (setting the error
signal if that throws), then always stores a `FileMetadata` with the
base64 content. -/
def processFile (file : BrowserFile) (pdfResult : Option Nat) (st : AppState) : AppState :=
  let counts : Nat × Nat :=
    if strStartsWith file.type "text/" then (jsWordCount file.text, file.text.length)
    else (0, 0)
  let pageCount : Option Nat :=
    if file.type = "application/pdf" then pdfResult else none
  let st1 :=
    if file.type = "application/pdf" ∧ pdfResult = none then
      { st with error := some pdfErrorMsg }
    else st
  { st1 with
      fileMetadata := some
        { name := file.name
          size := file.size
          type := file.type
          wordCount := counts.1
          charCount := counts.2
          base64Content := some file.base64
          pageCount := pageCount } }

/-- `handleFileChange`: `none` models an empty `input.files` list. An
oversize file sets the error, clears `attachedFile` and aborts (leaving
`fileMetadata` untouched); otherwise the file is attached, the error is
cleared and `processFile` runs. -/
def handleFileChange (file? : Option BrowserFile) (pdfResult : Option Nat)
    (st : AppState) : AppState :=
  match file? with
  | none => st
  | some file =>
    if file.size > MAX_FILE_SIZE then
      { st with error := some oversizeMsg, attachedFile := none }
    else
      processFile file pdfResult { st with attachedFile := some file, error := none }

/-- `removeAttachment`. -/
def removeAttachment (st : AppState) : AppState :=
  { st with attachedFile := none, fileMetadata := none }

/-! ## Streaming send orchestrator (`sendMessage`)

`sendMessage` is an async method; its only suspension points are the
`await` on the streaming call and the `for await` loop.  It is embedded
as two phases cut exactly at the streaming call: `sendMessagePhase1` is
everything executed synchronously before the network call begins
(precondition check, loading flag, session resolution, appending the
user message and the empty AI placeholder, input reset), and
`sendMessagePhase2` is the stream consumption loop together with the
`catch`/`finally` blocks.  The stream itself is external: it is modelled
by the list of text fragments delivered and a flag telling whether the
call threw (before the first fragment or between fragments). -/

/-- The outcome of the external streaming call: the text fragments that
arrived, in arrival order, and whether the call threw afterwards
(`chunks = []` with `throws = true` models a throw before any chunk). -/
structure StreamOutcome where
  chunks : List String
  throws : Bool
deriving DecidableEq, Repr

/-- `prompt.substring(0, 30) || fileMeta?.name || 'New Conversation'`:
JavaScript `||` falls through on the empty (falsy) string and on a
missing attachment. -/
def firstMessageTitle (prompt : String) (fileMeta : Option FileMetadata) : String :=
  let t := jsSubstring prompt 30
  if t ≠ "" then t
  else
    match fileMeta with
    | some f => if f.name ≠ "" then f.name else genericTitle
    | none => genericTitle

/-- `sessions.map(s => s.id === sid ? g(s) : s)` — the update shape used
by `sendMessage` to write a session back into the list. -/
def mapSession (sid : String) (g : ChatSession → ChatSession)
    (sessions : List ChatSession) : List ChatSession :=
  sessions.map (fun s => if s.id == sid then g s else s)

/-- `let currentSession = this.activeSession(); if (!currentSession)
{ this.startNewChat(); currentSession = this.activeSession(); ... }` —
resolve the session a send goes to, creating one when none is active. -/
def resolveSession (now : Nat) (st : AppState) : AppState × Option ChatSession :=
  match activeSession st with
  | some cs => (st, some cs)
  | none =>
    let stN := startNewChat now st
    (stN, activeSession stN)

/-- The mutations `sendMessage` performs on the resolved session: set the
title on the first message, then push the user message and the empty AI
placeholder. -/
def appendTurn (prompt : String) (fileMeta : Option FileMetadata)
    (cs : ChatSession) : ChatSession :=
  let userMessage : ChatMessage := { role := Role.user, text := prompt, fileInfo := fileMeta }
  let aiMessage : ChatMessage := { role := Role.ai, text := "", fileInfo := none }
  { cs with
      title := if cs.messages.length = 0 then firstMessageTitle prompt fileMeta else cs.title
      messages := cs.messages ++ [userMessage, aiMessage] }

/-- Result of the pre-network phase of `sendMessage`: the early
`return` on an empty send, the defensive "could not create" branch, or
the state at the instant the streaming call is issued plus the id of the
session being streamed into. -/
inductive SendResult
  | earlyExit (st : AppState)
  | failedSession (st : AppState)
  | ready (st : AppState) (sid : String)
deriving DecidableEq, Repr

/-- Everything `sendMessage` runs before the network call: trim the
prompt, return unless a prompt or an attachment is present, set the
loading flag and clear the error, resolve (or create) the session,
append the user message and AI placeholder, write the session back, and
reset the input. -/
def sendMessagePhase1 (now : Nat) (st : AppState) : SendResult :=
  let prompt := jsTrimStr st.currentPrompt
  let fileMeta := st.fileMetadata
  if prompt = "" ∧ fileMeta = none then SendResult.earlyExit st
  else
    let st1 := { st with isLoading := true, error := none }
    match resolveSession now st1 with
    | (st2, none) =>
      SendResult.failedSession { st2 with error := some noSessionMsg, isLoading := false }
    | (st2, some cs) =>
      let cs2 := appendTurn prompt fileMeta cs
      SendResult.ready
        (resetInput
          { st2 with chatSessions := mapSession cs.id (fun _ => cs2) st2.chatSessions })
        cs.id

/-- One loop-body / catch-block mutation of the AI placeholder: rewrite
the text of the last message of the session with id `sid` (the
placeholder is the last message pushed) and write the session back. -/
def modifyLastMessage (f : ChatMessage → ChatMessage) : List ChatMessage → List ChatMessage
  | [] => []
  | [m] => [f m]
  | m :: ms => m :: modifyLastMessage f ms

/-- `aiMessage.text = f(aiMessage.text)` followed by the
`chatSessions.update(...)` write-back. -/
def updateLastAiText (sid : String) (f : String → String) (st : AppState) : AppState :=
  { st with
      chatSessions :=
        mapSession sid
          (fun s => { s with
            messages := modifyLastMessage (fun m => { m with text := f m.text }) s.messages })
          st.chatSessions }

/-- The `for await` loop, the `catch` block and the `finally` block of
`sendMessage`: append each arriving fragment to the placeholder; if the
call threw, set the error signal and overwrite the placeholder's text
with the apology; finally clear the loading flag. -/
def sendMessagePhase2 (outcome : StreamOutcome) (sid : String) (st : AppState) : AppState :=
  let streamed :=
    outcome.chunks.foldl (fun s c => updateLastAiText sid (fun t => t ++ c) s) st
  let settled :=
    if outcome.throws then
      { updateLastAiText sid (fun _ => apologyMsg) streamed with error := some commErrorMsg }
    else streamed
  { settled with isLoading := false }

/-- `sendMessage`, whole: phase 1, then — unless it returned early —
the streaming phase with the given stream outcome. -/
def sendMessage (now : Nat) (outcome : StreamOutcome) (st : AppState) : AppState :=
  match sendMessagePhase1 now st with
  | SendResult.earlyExit s => s
  | SendResult.failedSession s => s
  | SendResult.ready s sid => sendMessagePhase2 outcome sid s

/-- Concatenation of stream fragments in arrival order (the value the
placeholder holds after a successful stream). -/
def concatChunks : List String → String
  | [] => ""
  | c :: cs => c ++ concatChunks cs

/-! ## Markdown pipe (`markdown.pipe.ts`)

`marked.parse` is an external library; it is a parameter
`parse : String → Option String` (`none` models a parse throw, which the
pipe catches).  `DomSanitizer.bypassSecurityTrustHtml` is Angular API
whose documented contract is to mark the given string as trusted HTML
verbatim, performing no sanitization and disabling the sanitization the
framework would otherwise apply at the binding site; it is therefore the
identity on the carried markup. -/

/-- Angular's `SafeHtml`: markup the framework will insert verbatim. -/
structure SafeHtml where
  html : String
deriving DecidableEq, Repr

/-- `DomSanitizer.bypassSecurityTrustHtml`: wraps the string unchanged. -/
def bypassSecurityTrustHtml (value : String) : SafeHtml :=
  { html := value }

/-- `MarkdownPipe.transform`: empty result for `null`/`undefined`/blank
input or a parse throw; otherwise the raw parser output marked as
trusted.  No transformation is applied between the parser's raw HTML
and the view. -/
def MarkdownPipe.transform (parse : String → Option String)
    (value : Option String) : SafeHtml :=
  match value with
  | none => { html := "" }
  | some v =>
    if jsTrimStr v = "" then { html := "" }
    else
      match parse v with
      | some rawHtml => bypassSecurityTrustHtml rawHtml
      | none => { html := "" }

/-! ## Lemmas: word counting -/

/-- Appending a trailing whitespace character does not change the token
count, whatever scan state the counter is in. -/
theorem countTokensAux_append_ws (c : Char) (hc : c.isWhitespace = true)
    (b : Bool) (l : List Char) :
    countTokensAux b (l ++ [c]) = countTokensAux b l := by
  induction l generalizing b with
  | nil => simp [countTokensAux, hc]
  | cons d ds ih =>
    by_cases hd : d.isWhitespace <;> simp [countTokensAux, hd, ih]

/-- Dropping leading whitespace does not change the token count. -/
theorem countTokensAux_dropWhile (l : List Char) :
    countTokensAux false (l.dropWhile Char.isWhitespace) = countTokensAux false l := by
  induction l with
  | nil => rfl
  | cons c cs ih =>
    by_cases hc : c.isWhitespace <;> simp [List.dropWhile, hc, countTokensAux, ih]

/-- Dropping trailing whitespace (phrased on the reversed list) does not
change the token count. -/
theorem countTokensAux_dropTrail (r : List Char) :
    countTokensAux false ((r.dropWhile Char.isWhitespace).reverse) =
      countTokensAux false r.reverse := by
  induction r with
  | nil => rfl
  | cons c cs ih =>
    by_cases hc : c.isWhitespace
    · simpa [List.dropWhile, hc, List.reverse_cons,
        countTokensAux_append_ws c hc] using ih
    · simp [List.dropWhile, hc]

/-- JavaScript `trim` does not change the token count. -/
theorem countTokens_jsTrim (l : List Char) : countTokens (jsTrim l) = countTokens l := by
  unfold countTokens jsTrim
  rw [countTokensAux_dropTrail, List.reverse_reverse, countTokensAux_dropWhile]

/-- `splitAtWs` always yields at least one piece. -/
theorem splitAtWs_ne_nil (l : List Char) : splitAtWs l ≠ [] := by
  cases l with
  | nil => simp [splitAtWs]
  | cons c cs =>
    by_cases hc : c.isWhitespace
    · simp [splitAtWs, hc]
    · simp only [splitAtWs, hc, Bool.false_eq_true, if_false]
      cases h : splitAtWs cs <;> simp

/-- Joint invariant of the scan and the split-then-filter pipeline: in
the `false` state the scan counts all non-empty pieces, in the `true`
state (inside a token) it counts the non-empty pieces after the current
one. -/
theorem countTokensAux_splitAtWs (l : List Char) :
    countTokensAux false l = ((splitAtWs l).filter (fun t => !t.isEmpty)).length ∧
    countTokensAux true l = (((splitAtWs l).tail).filter (fun t => !t.isEmpty)).length := by
  induction l with
  | nil => simp [countTokensAux, splitAtWs]
  | cons c cs ih =>
    by_cases hc : c.isWhitespace
    · simp [countTokensAux, splitAtWs, hc, ih.1]
    · obtain ⟨t, ts, hsplit⟩ : ∃ t ts, splitAtWs cs = t :: ts := by
        cases h : splitAtWs cs with
        | nil => exact absurd h (splitAtWs_ne_nil cs)
        | cons t ts => exact ⟨t, ts, rfl⟩
      have h2 := ih.2
      rw [hsplit] at h2
      simp only [List.tail_cons] at h2
      constructor
      · simp [countTokensAux, splitAtWs, hc, hsplit, h2, List.filter]
        omega
      · simp [countTokensAux, splitAtWs, hc, hsplit, h2]

/-- The source's `trim().split(/\s+/).filter(Boolean).length` computes
exactly the number of maximal non-empty whitespace-delimited tokens. -/
theorem jsWordCount_eq_countTokens (l : List Char) : jsWordCount l = countTokens l := by
  unfold jsWordCount
  rw [← (countTokensAux_splitAtWs (jsTrim l)).1]
  exact countTokens_jsTrim l

/-! ## Lemmas and claims: history builder -/

/-- Every turn's part list ends with the text part of its message. -/
theorem msgToContent_parts_shape (m : ChatMessage) :
    ∃ ps, (msgToContent m).parts = ps ++ [ContentPart.text m.text] := by
  cases m with
  | mk role text fileInfo =>
    cases role with
    | ai => exact ⟨[], rfl⟩
    | user =>
      cases fileInfo with
      | none => exact ⟨[], rfl⟩
      | some fi =>
        cases hb : fi.base64Content with
        | none => exact ⟨[], by simp [msgToContent, hb]⟩
        | some d =>
          by_cases hd : d = ""
          · exact ⟨[], by simp [msgToContent, hb, hd]⟩
          · exact ⟨[ContentPart.inlineData fi.type d], by simp [msgToContent, hb, hd]⟩

/-- A four-message history sample: a user message carrying a file, an AI
answer, then the trailing new prompt and empty placeholder. -/
def histSample : List ChatMessage :=
  [ { role := Role.user, text := "hi", fileInfo := some sampleMeta },
    { role := Role.ai, text := "hello" },
    { role := Role.user, text := "next" },
    { role := Role.ai, text := "" } ]

/-- C1: for every message list whose trailing two entries are the new
user prompt and the empty AI placeholder, `buildHistory` places the file
`inlineData` part before the text part in the turn produced for every
earlier user message whose metadata has embedded (non-empty) base64
content.  `buildHistory` is a pure function of the message list, so this
holds identically on every call — every subsequent turn replays the file
part, not only the first. -/
theorem buildHistory_file_part_first (pre rest : List ChatMessage)
    (msg u a : ChatMessage) (f : FileMetadata) (d : String)
    (hrole : msg.role = Role.user) (hfi : msg.fileInfo = some f)
    (hb : f.base64Content = some d) (hd : d ≠ "") :
    buildHistory (pre ++ msg :: rest ++ [u, a]) =
      pre.map msgToContent ++
        { role := "user",
          parts := [ContentPart.inlineData f.type d, ContentPart.text msg.text] }
        :: rest.map msgToContent := by
  have hlist : pre ++ msg :: rest ++ [u, a] = (pre ++ msg :: rest) ++ [u, a] := by
    simp
  rw [hlist]
  unfold buildHistory
  have hlen : ((pre ++ msg :: rest) ++ [u, a]).length - 2 = (pre ++ msg :: rest).length := by
    simp
    omega
  rw [hlen, List.take_left]
  simp [msgToContent, hrole, hfi, hb, hd]

/-- Witness for C1 at a concrete history. -/
theorem buildHistory_file_part_first_witness :
    buildHistory histSample =
      [ { role := "user",
          parts := [ContentPart.inlineData "text/plain" "QQ==", ContentPart.text "hi"] },
        { role := "model", parts := [ContentPart.text "hello"] } ] :=
  buildHistory_file_part_first []
    [ { role := Role.ai, text := "hello" } ]
    { role := Role.user, text := "hi", fileInfo := some sampleMeta }
    { role := Role.user, text := "next" } { role := Role.ai, text := "" }
    sampleMeta "QQ==" rfl rfl rfl (by decide)

/-- C2: `buildHistory` returns exactly one turn per message excluding the
trailing two, in insertion order: the i-th turn's role is `"model"` for
an `'ai'` message and `"user"` for a `'user'` message, and its part list
ends with the i-th message's text part.  The trailing two messages are
never included (the output length is the message count minus two). -/
theorem buildHistory_turn_per_message (ms : List ChatMessage) :
    (buildHistory ms).length = ms.length - 2 ∧
    ∀ (i : Nat) (h2 : i < (buildHistory ms).length) (h3 : i < ms.length),
      ((buildHistory ms).get ⟨i, h2⟩).role =
        (if (ms.get ⟨i, h3⟩).role = Role.ai then "model" else "user") ∧
      ∃ ps, ((buildHistory ms).get ⟨i, h2⟩).parts =
        ps ++ [ContentPart.text (ms.get ⟨i, h3⟩).text] := by
  have hlen : (buildHistory ms).length = ms.length - 2 := by
    simp only [buildHistory, List.length_map, List.length_take]
    exact Nat.min_eq_left (Nat.sub_le _ _)
  refine ⟨hlen, ?_⟩
  intro i h2 h3
  have hget : (buildHistory ms).get ⟨i, h2⟩ = msgToContent (ms.get ⟨i, h3⟩) := by
    simp [buildHistory, List.get_eq_getElem, List.getElem_map, List.getElem_take]
  rw [hget]
  exact ⟨rfl, msgToContent_parts_shape _⟩

/-- Witness for C2 at a concrete history and index. -/
theorem buildHistory_turn_per_message_witness :
    (buildHistory histSample).length = histSample.length - 2 ∧
    ((buildHistory histSample).get ⟨1, by decide⟩).role = "model" :=
  ⟨(buildHistory_turn_per_message histSample).1,
   ((buildHistory_turn_per_message histSample).2 1 (by decide) (by decide)).1.trans
     (by decide)⟩

/-! ## Claims: file attachment -/

/-- The blank initial component state. -/
def emptyState : AppState :=
  { chatSessions := []
    activeSessionId := none
    isLoading := false
    currentPrompt := ""
    attachedFile := none
    fileMetadata := none
    error := none }

/-- C6: every file whose size exceeds the fixed 5 MiB threshold is
rejected: the descriptive error is set, the attachment is cleared, and
processing aborts — the whole resulting state is the input state with
only the error slot and `attachedFile` changed, so in particular no
`FileMetadata` is produced for the file. -/
theorem handleFileChange_oversize (st : AppState) (file : BrowserFile)
    (pdfResult : Option Nat) (hsize : file.size > 5 * 1024 * 1024) :
    handleFileChange (some file) pdfResult st =
      { st with error := some oversizeMsg, attachedFile := none } := by
  simp [handleFileChange, MAX_FILE_SIZE, hsize]

/-- A 6 MiB file, over the threshold. -/
def bigFile : BrowserFile :=
  { name := "big.txt"
    size := 6 * 1024 * 1024
    type := "text/plain"
    text := []
    base64 := "" }

/-- Witness for C6 at a concrete oversize file. -/
theorem handleFileChange_oversize_witness :
    handleFileChange (some bigFile) none emptyState =
      { emptyState with error := some oversizeMsg, attachedFile := none } :=
  handleFileChange_oversize emptyState bigFile none (by decide)

/-- C8: for a file with a textual declared MIME type that passes the
size check, the produced `FileMetadata` has `charCount` equal to the
length of the decoded text content and `wordCount` equal to the number
of maximal non-empty whitespace-delimited tokens of that content
(`countTokens`; in particular `0` for empty or all-whitespace content,
since such content has no tokens). -/
theorem processFile_text_counts (st : AppState) (file : BrowserFile)
    (pdfResult : Option Nat)
    (htype : strStartsWith file.type "text/" = true)
    (hsize : ¬ file.size > 5 * 1024 * 1024) :
    (handleFileChange (some file) pdfResult st).fileMetadata =
      some { name := file.name
             size := file.size
             type := file.type
             wordCount := countTokens file.text
             charCount := file.text.length
             base64Content := some file.base64
             pageCount := none } := by
  have hpdf : ¬ file.type = "application/pdf" := by
    intro h
    rw [h] at htype
    exact absurd htype (by decide)
  simp [handleFileChange, MAX_FILE_SIZE, hsize, processFile, htype, hpdf,
    jsWordCount_eq_countTokens]

/-- A small text file: "hi there" (8 characters, 2 tokens). -/
def smallTextFile : BrowserFile :=
  { name := "a.txt"
    size := 8
    type := "text/plain"
    text := "hi there".toList
    base64 := "aGkgdGhlcmU=" }

/-- Witness for C8 at a concrete text file. -/
theorem processFile_text_counts_witness :
    (handleFileChange (some smallTextFile) none emptyState).fileMetadata =
      some { name := smallTextFile.name
             size := smallTextFile.size
             type := smallTextFile.type
             wordCount := countTokens smallTextFile.text
             charCount := smallTextFile.text.length
             base64Content := some smallTextFile.base64
             pageCount := none } :=
  processFile_text_counts emptyState smallTextFile none (by decide) (by decide)

example : countTokens smallTextFile.text = 2 ∧ smallTextFile.text.length = 8 := by
  decide

/-! ## Claim: markdown pipe (C4)

The pipe's own comment reads "Sanitize the HTML to prevent XSS attacks
before rendering", but the call it makes is
`DomSanitizer.bypassSecurityTrustHtml`, whose contract is to mark the
string as trusted **without** sanitizing it and to disable the
sanitization Angular would otherwise apply at the `[innerHTML]` binding.
`marked` does not sanitize either (with `gfm` enabled it passes inline
HTML through).  So the transform output carries any adversarial markup
verbatim: the parser below reproduces `marked`'s documented behaviour on
an input that is a bare inline-HTML payload, and the pipe's output is
that payload, unneutralized. -/

/-- C4 (refuted — code bug): at a concrete adversarial input, the
transform output still contains the `onerror` payload verbatim; no
neutralization happens between the markdown parser and the view. -/
theorem markdown_transform_passthrough :
    (MarkdownPipe.transform (fun v => some ("<p>" ++ v ++ "</p>\n"))
        (some "<img src=x onerror=alert(1)>")).html =
      "<p><img src=x onerror=alert(1)></p>\n" := by
  decide

/-! ## Claim: deleting a session (C7) -/

/-- C7: `deleteChat id` removes exactly the sessions with that id (every
other session survives), and afterwards the active id is never a
dangling reference: if the deleted session was active the active id
becomes the new first session's id (or none when the list emptied),
otherwise it keeps pointing at a surviving session.  The hypotheses say
the deleted id is present and that the incoming state is consistent (the
active id, when set, names a session in the list) — the invariant every
reachable component state satisfies. -/
theorem deleteChat_no_dangling (st : AppState) (id : String)
    (_hin : ∃ s ∈ st.chatSessions, s.id = id)
    (hinv : st.activeSessionId = none ∨
      ∃ s ∈ st.chatSessions, st.activeSessionId = some s.id) :
    (∀ s ∈ (deleteChat id st).chatSessions, s.id ≠ id) ∧
    (∀ s ∈ st.chatSessions, s.id ≠ id → s ∈ (deleteChat id st).chatSessions) ∧
    (st.activeSessionId = some id →
      (deleteChat id st).activeSessionId =
        Option.map ChatSession.id (deleteChat id st).chatSessions.head?) ∧
    ((deleteChat id st).activeSessionId = none ∨
      ∃ s ∈ (deleteChat id st).chatSessions,
        (deleteChat id st).activeSessionId = some s.id) := by
  have hsessions : (deleteChat id st).chatSessions
      = st.chatSessions.filter (fun s => s.id != id) := rfl
  have hactive : (deleteChat id st).activeSessionId
      = (if st.activeSessionId = some id then
          Option.map (fun s => s.id) (st.chatSessions.filter (fun s => s.id != id)).head?
        else st.activeSessionId) := rfl
  refine ⟨?_, ?_, ?_, ?_⟩
  · intro s hs
    rw [hsessions] at hs
    exact bne_iff_ne.mp (List.mem_filter.mp hs).2
  · intro s hs hne
    rw [hsessions]
    exact List.mem_filter.mpr ⟨hs, bne_iff_ne.mpr hne⟩
  · intro hact
    rw [hactive, if_pos hact, hsessions]
  · by_cases hact : st.activeSessionId = some id
    · cases h : (st.chatSessions.filter (fun s => s.id != id)).head? with
      | none =>
        left
        rw [hactive, if_pos hact, h]
        rfl
      | some s =>
        right
        refine ⟨s, ?_, ?_⟩
        · rw [hsessions]
          exact List.mem_of_mem_head? (by rw [h]; rfl)
        · rw [hactive, if_pos hact, h]
          rfl
    · rcases hinv with h0 | ⟨s, hsmem, hsid⟩
      · left
        rw [hactive, if_neg hact]
        exact h0
      · right
        have hne : s.id ≠ id := by
          intro contra
          rw [contra] at hsid
          exact hact hsid
        refine ⟨s, ?_, ?_⟩
        · rw [hsessions]
          exact List.mem_filter.mpr ⟨hsmem, bne_iff_ne.mpr hne⟩
        · rw [hactive, if_neg hact]
          exact hsid

/-- Two concrete sessions for the C7 witness. -/
def sessionA : ChatSession :=
  { id := "chat_1", title := "A", messages := [], createdAt := 1 }

/-- Second concrete session for the C7 witness. -/
def sessionB : ChatSession :=
  { id := "chat_2", title := "B", messages := [], createdAt := 2 }

/-- Concrete two-session state with the first session active. -/
def twoSessionState : AppState :=
  { emptyState with
      chatSessions := [sessionA, sessionB]
      activeSessionId := some "chat_1" }

/-- Witness for C7: deleting the active first session falls back to the
surviving session, with no dangling reference. -/
theorem deleteChat_no_dangling_witness :
    (∀ s ∈ (deleteChat "chat_1" twoSessionState).chatSessions, s.id ≠ "chat_1") ∧
    (∀ s ∈ twoSessionState.chatSessions, s.id ≠ "chat_1" →
      s ∈ (deleteChat "chat_1" twoSessionState).chatSessions) ∧
    (twoSessionState.activeSessionId = some "chat_1" →
      (deleteChat "chat_1" twoSessionState).activeSessionId =
        Option.map ChatSession.id (deleteChat "chat_1" twoSessionState).chatSessions.head?) ∧
    ((deleteChat "chat_1" twoSessionState).activeSessionId = none ∨
      ∃ s ∈ (deleteChat "chat_1" twoSessionState).chatSessions,
        (deleteChat "chat_1" twoSessionState).activeSessionId = some s.id) :=
  deleteChat_no_dangling twoSessionState "chat_1"
    ⟨sessionA, by decide, by decide⟩ (Or.inr ⟨sessionA, by decide, by decide⟩)

/-! ## Lemmas: session lookup and the streaming loop -/

/-- After `startNewChat` the fresh session is active. -/
theorem activeSession_startNewChat (now : Nat) (st : AppState) :
    activeSession (startNewChat now st) = some (newSession now) := by
  simp [activeSession, startNewChat, resetInput, findSession, newSession, List.find?]

/-- `modifyLastMessage` on a list with at least two elements keeps the
head. -/
theorem modifyLastMessage_cons_cons (f : ChatMessage → ChatMessage)
    (a b : ChatMessage) (t : List ChatMessage) :
    modifyLastMessage f (a :: b :: t) = a :: modifyLastMessage f (b :: t) := rfl

/-- `modifyLastMessage` preserves non-emptiness. -/
theorem modifyLastMessage_ne_nil (f : ChatMessage → ChatMessage)
    {l : List ChatMessage} (h : l ≠ []) : modifyLastMessage f l ≠ [] := by
  cases l with
  | nil => exact absurd rfl h
  | cons b t => cases t <;> simp [modifyLastMessage]

/-- `modifyLastMessage` skips the head of a cons whose tail is
non-empty. -/
theorem modifyLastMessage_cons_of_ne_nil (f : ChatMessage → ChatMessage)
    (a : ChatMessage) {l : List ChatMessage} (h : l ≠ []) :
    modifyLastMessage f (a :: l) = a :: modifyLastMessage f l := by
  cases l with
  | nil => exact absurd rfl h
  | cons b t => rfl

/-- Two last-message rewrites compose. -/
theorem modifyLastMessage_comp (f g : ChatMessage → ChatMessage)
    (l : List ChatMessage) :
    modifyLastMessage f (modifyLastMessage g l) =
      modifyLastMessage (fun m => f (g m)) l := by
  induction l with
  | nil => rfl
  | cons a t ih =>
    cases t with
    | nil => rfl
    | cons b t2 =>
      rw [modifyLastMessage_cons_cons, modifyLastMessage_cons_cons,
        modifyLastMessage_cons_of_ne_nil f a (modifyLastMessage_ne_nil g (by simp)),
        ih]

/-- Pointwise-equal rewrites give equal `modifyLastMessage` results. -/
theorem modifyLastMessage_congr (f g : ChatMessage → ChatMessage)
    (h : ∀ m, f m = g m) (l : List ChatMessage) :
    modifyLastMessage f l = modifyLastMessage g l := by
  induction l with
  | nil => rfl
  | cons a t ih =>
    cases t with
    | nil => simp [modifyLastMessage, h]
    | cons b t2 => rw [modifyLastMessage_cons_cons, modifyLastMessage_cons_cons, ih]

/-- The identity rewrite leaves the list unchanged. -/
theorem modifyLastMessage_id (l : List ChatMessage) :
    modifyLastMessage (fun m => m) l = l := by
  induction l with
  | nil => rfl
  | cons a t ih =>
    cases t with
    | nil => rfl
    | cons b t2 => rw [modifyLastMessage_cons_cons, ih]

/-- Rewriting the last message of `l ++ [x]` rewrites exactly `x`. -/
theorem modifyLastMessage_append (f : ChatMessage → ChatMessage)
    (l : List ChatMessage) (x : ChatMessage) :
    modifyLastMessage f (l ++ [x]) = l ++ [f x] := by
  induction l with
  | nil => rfl
  | cons a t ih =>
    rw [List.cons_append,
      modifyLastMessage_cons_of_ne_nil f a (by simp), ih, List.cons_append]

/-- Looking up `sid` after a `mapSession sid g` write-back finds the
rewritten session, for any per-session rewrite that preserves ids. -/
theorem findSession_mapSession (sid : String) (g : ChatSession → ChatSession)
    (hg : ∀ s, (g s).id = s.id) (l : List ChatSession) :
    findSession (mapSession sid g l) sid = (findSession l sid).map g := by
  induction l with
  | nil => rfl
  | cons a t ih =>
    by_cases h : a.id = sid
    · have h1 : (a.id == sid) = true := beq_iff_eq.mpr h
      have h2 : ((g a).id == sid) = true := beq_iff_eq.mpr (by rw [hg]; exact h)
      simp [findSession, mapSession, List.find?, h1, h2]
    · have h1 : (a.id == sid) = false := beq_eq_false_iff_ne.mpr h
      simp only [findSession, mapSession, List.map_cons, h1, Bool.false_eq_true,
        if_false, List.find?, Bool.cond_eq_if]
      simpa [findSession, mapSession] using ih

/-- Looking up `sid` after replacing every `sid`-session with `c` (the
write-back `sessions.map(s => s.id === sid ? cs2 : s)`) finds `c`,
provided some `sid`-session was present. -/
theorem findSession_replace (l : List ChatSession) (sid : String) (c : ChatSession)
    (hid : c.id = sid) (cs : ChatSession) (h : findSession l sid = some cs) :
    findSession (mapSession sid (fun _ => c) l) sid = some c := by
  induction l with
  | nil => simp [findSession, List.find?] at h
  | cons a t ih =>
    by_cases ha : a.id = sid
    · have h1 : (a.id == sid) = true := beq_iff_eq.mpr ha
      have h2 : (c.id == sid) = true := beq_iff_eq.mpr hid
      simp [findSession, mapSession, List.find?, h1, h2]
    · have h1 : (a.id == sid) = false := beq_eq_false_iff_ne.mpr ha
      have h' : findSession t sid = some cs := by
        simpa [findSession, List.find?, h1, Bool.cond_eq_if] using h
      simpa [findSession, mapSession, List.find?, h1, Bool.cond_eq_if] using ih h'

/-- The streaming loop only rewrites `chatSessions`; all other state
fields pass through unchanged. -/
theorem consume_preserves (sid : String) (chunks : List String) (st : AppState) :
    (chunks.foldl (fun s c => updateLastAiText sid (fun t => t ++ c) s) st).activeSessionId
        = st.activeSessionId ∧
    (chunks.foldl (fun s c => updateLastAiText sid (fun t => t ++ c) s) st).isLoading
        = st.isLoading ∧
    (chunks.foldl (fun s c => updateLastAiText sid (fun t => t ++ c) s) st).error
        = st.error := by
  induction chunks generalizing st with
  | nil => exact ⟨rfl, rfl, rfl⟩
  | cons c rest ih =>
    simpa using ih (updateLastAiText sid (fun t => t ++ c) st)

/-- Net effect of the streaming loop on the session being streamed into:
the last message's text grows by the concatenation of all fragments in
arrival order. -/
theorem findSession_consume (sid : String) (chunks : List String)
    (st : AppState) (cs : ChatSession)
    (h : findSession st.chatSessions sid = some cs) :
    findSession
        (chunks.foldl (fun s c => updateLastAiText sid (fun t => t ++ c) s) st).chatSessions
        sid =
      some { cs with
        messages := modifyLastMessage
          (fun m => { m with text := m.text ++ concatChunks chunks }) cs.messages } := by
  induction chunks generalizing st cs with
  | nil =>
    simp only [List.foldl_nil, concatChunks]
    rw [h]
    have hmsg : modifyLastMessage (fun m => { m with text := m.text ++ "" }) cs.messages
        = cs.messages := by
      rw [modifyLastMessage_congr _ (fun m => m)
        (fun m => by rw [String.append_empty]), modifyLastMessage_id]
    rw [hmsg]
  | cons c rest ih =>
    simp only [List.foldl_cons]
    have h1 : findSession (updateLastAiText sid (fun t => t ++ c) st).chatSessions sid
        = some { cs with
            messages := modifyLastMessage
              (fun m => { m with text := m.text ++ c }) cs.messages } := by
      show findSession
        (mapSession sid
          (fun s => { s with
            messages := modifyLastMessage (fun m => { m with text := m.text ++ c }) s.messages })
          st.chatSessions) sid = _
      rw [findSession_mapSession sid
        (fun s => { s with
          messages := modifyLastMessage (fun m => { m with text := m.text ++ c }) s.messages })
        (fun s => rfl) st.chatSessions, h]
      rfl
    rw [ih _ _ h1]
    have hmsg : modifyLastMessage (fun m => { m with text := m.text ++ concatChunks rest })
          (modifyLastMessage (fun m => { m with text := m.text ++ c }) cs.messages)
        = modifyLastMessage
            (fun m => { m with text := m.text ++ concatChunks (c :: rest) }) cs.messages := by
      rw [modifyLastMessage_comp]
      exact modifyLastMessage_congr _ _
        (fun m => by simp only [concatChunks]; rw [String.append_assoc]) _
    rw [show ({ cs with
        messages := modifyLastMessage (fun m => { m with text := m.text ++ c }) cs.messages }
          : ChatSession).messages
      = modifyLastMessage (fun m => { m with text := m.text ++ c }) cs.messages from rfl]
    rw [hmsg]

/-- Effect of the whole streaming phase (`for await` loop, `catch`,
`finally`) on state projections and on the session streamed into. -/
theorem sendMessagePhase2_spec (outcome : StreamOutcome) (sid : String)
    (st : AppState) (cs : ChatSession)
    (h : findSession st.chatSessions sid = some cs) :
    (sendMessagePhase2 outcome sid st).activeSessionId = st.activeSessionId ∧
    (sendMessagePhase2 outcome sid st).isLoading = false ∧
    (sendMessagePhase2 outcome sid st).error =
      (if outcome.throws then some commErrorMsg else st.error) ∧
    findSession (sendMessagePhase2 outcome sid st).chatSessions sid =
      some { cs with
        messages := modifyLastMessage
          (fun m => { m with text :=
            if outcome.throws then apologyMsg
            else m.text ++ concatChunks outcome.chunks }) cs.messages } := by
  obtain ⟨hact, hload, herr⟩ := consume_preserves sid outcome.chunks st
  have hfind := findSession_consume sid outcome.chunks st cs h
  cases hthrow : outcome.throws with
  | false =>
    refine ⟨?_, ?_, ?_, ?_⟩
    · simpa [sendMessagePhase2, hthrow] using hact
    · simp [sendMessagePhase2, hthrow]
    · simpa [sendMessagePhase2, hthrow] using herr
    · simpa [sendMessagePhase2, hthrow] using hfind
  | true =>
    have step1 : findSession (updateLastAiText sid (fun _ => apologyMsg)
        (outcome.chunks.foldl (fun s c => updateLastAiText sid (fun t => t ++ c) s)
          st)).chatSessions sid
        = some { cs with
            messages := modifyLastMessage (fun m => { m with text := apologyMsg })
              (modifyLastMessage
                (fun m => { m with text := m.text ++ concatChunks outcome.chunks })
                cs.messages) } := by
      show findSession
        (mapSession sid
          (fun s => { s with
            messages := modifyLastMessage
              (fun m => { m with text := apologyMsg }) s.messages })
          (outcome.chunks.foldl (fun s c => updateLastAiText sid (fun t => t ++ c) s)
            st).chatSessions) sid = _
      rw [findSession_mapSession sid
        (fun s => { s with
          messages := modifyLastMessage
            (fun m => { m with text := apologyMsg }) s.messages })
        (fun s => rfl) _, hfind]
      rfl
    have step2 : modifyLastMessage (fun m => { m with text := apologyMsg })
          (modifyLastMessage
            (fun m => { m with text := m.text ++ concatChunks outcome.chunks })
            cs.messages)
        = modifyLastMessage (fun m => { m with text := apologyMsg }) cs.messages := by
      rw [modifyLastMessage_comp]
    refine ⟨?_, ?_, ?_, ?_⟩
    · simpa [sendMessagePhase2, hthrow, updateLastAiText] using hact
    · simp [sendMessagePhase2, hthrow]
    · simp [sendMessagePhase2, hthrow]
    · rw [step2] at step1
      simpa [sendMessagePhase2, hthrow] using step1

/-- Everything phase 1 guarantees at the instant the streaming call is
issued: it returns `ready`, the loading flag is set, the error and the
input are cleared, the streamed-into session is active and findable, its
message list is the prior messages followed by the user message (with
the captured prompt and metadata) and the empty AI placeholder, and its
title was set by the first-message policy exactly when there were no
prior messages. -/
theorem sendMessagePhase1_spec (now : Nat) (st : AppState)
    (hpre : ¬ (jsTrimStr st.currentPrompt = "" ∧ st.fileMetadata = none)) :
    ∃ st' sid prior title0 created,
      sendMessagePhase1 now st = SendResult.ready st' sid ∧
      st'.activeSessionId = some sid ∧
      st'.error = none ∧
      st'.isLoading = true ∧
      st'.currentPrompt = "" ∧
      st'.attachedFile = none ∧
      st'.fileMetadata = none ∧
      findSession st'.chatSessions sid = some
        { id := sid
          title :=
            if prior.length = 0 then
              firstMessageTitle (jsTrimStr st.currentPrompt) st.fileMetadata
            else title0
          messages := prior ++
            [ { role := Role.user, text := jsTrimStr st.currentPrompt,
                fileInfo := st.fileMetadata },
              { role := Role.ai, text := "", fileInfo := none } ]
          createdAt := created } ∧
      (∀ cs, activeSession st = some cs → prior = cs.messages ∧ title0 = cs.title) ∧
      (activeSession st = none → prior = []) := by
  cases hactive : activeSession st with
  | some cs =>
    have hres : resolveSession now { st with isLoading := true, error := none } =
        ({ st with isLoading := true, error := none }, some cs) := by
      unfold resolveSession
      rw [show activeSession { st with isLoading := true, error := none }
          = activeSession st from rfl, hactive]
    obtain ⟨id0, hid0, hfind0⟩ :
        ∃ id0, st.activeSessionId = some id0 ∧ findSession st.chatSessions id0 = some cs := by
      unfold activeSession at hactive
      cases hsid : st.activeSessionId with
      | none => rw [hsid] at hactive; exact absurd hactive (by simp)
      | some i => rw [hsid] at hactive; exact ⟨i, rfl, hactive⟩
    have hfind0' : List.find? (fun s => s.id == id0) st.chatSessions = some cs := hfind0
    have hbeq := List.find?_some hfind0'
    have hcsid : cs.id = id0 := beq_iff_eq.mp hbeq
    have main : sendMessagePhase1 now st = SendResult.ready
        (resetInput
          { { st with isLoading := true, error := none } with
              chatSessions := mapSession cs.id
                (fun _ => appendTurn (jsTrimStr st.currentPrompt) st.fileMetadata cs)
                st.chatSessions })
        cs.id := by
      simp only [sendMessagePhase1]
      rw [if_neg hpre, hres]
    refine ⟨_, cs.id, cs.messages, cs.title, cs.createdAt, main, ?_, rfl, rfl, rfl, rfl,
      rfl, ?_, ?_, ?_⟩
    · show st.activeSessionId = some cs.id
      rw [hid0, hcsid]
    · show findSession
        (mapSession cs.id
          (fun _ => appendTurn (jsTrimStr st.currentPrompt) st.fileMetadata cs)
          st.chatSessions) cs.id = _
      rw [findSession_replace st.chatSessions cs.id
        (appendTurn (jsTrimStr st.currentPrompt) st.fileMetadata cs) rfl cs
        (by rw [hcsid]; exact hfind0)]
      rfl
    · intro cs' hcs'
      cases hcs'
      exact ⟨rfl, rfl⟩
    · intro hnone
      exact Option.noConfusion hnone
  | none =>
    have hres : resolveSession now { st with isLoading := true, error := none } =
        (startNewChat now { st with isLoading := true, error := none },
          some (newSession now)) := by
      unfold resolveSession
      rw [show activeSession { st with isLoading := true, error := none }
          = activeSession st from rfl, hactive]
      simp only [activeSession_startNewChat]
    have hfindN : findSession
        (startNewChat now { st with isLoading := true, error := none }).chatSessions
        (newSession now).id = some (newSession now) := by
      simp [startNewChat, resetInput, findSession, newSession, List.find?]
    have main : sendMessagePhase1 now st = SendResult.ready
        (resetInput
          { startNewChat now { st with isLoading := true, error := none } with
              chatSessions := mapSession (newSession now).id
                (fun _ => appendTurn (jsTrimStr st.currentPrompt) st.fileMetadata
                  (newSession now))
                (startNewChat now
                  { st with isLoading := true, error := none }).chatSessions })
        (newSession now).id := by
      simp only [sendMessagePhase1]
      rw [if_neg hpre, hres]
    refine ⟨_, (newSession now).id, [], genericTitle, now, main, rfl, rfl, rfl, rfl, rfl,
      rfl, ?_, ?_, ?_⟩
    · show findSession
        (mapSession (newSession now).id
          (fun _ => appendTurn (jsTrimStr st.currentPrompt) st.fileMetadata
            (newSession now))
          (startNewChat now { st with isLoading := true, error := none }).chatSessions)
        (newSession now).id = _
      rw [findSession_replace _ (newSession now).id
        (appendTurn (jsTrimStr st.currentPrompt) st.fileMetadata (newSession now)) rfl
        (newSession now) hfindN]
      rfl
    · intro cs' hcs'
      exact Option.noConfusion hcs'
    · intro _
      rfl

/-- End-to-end shape of a non-empty send: afterwards the active session
exists, its messages are the prior messages, then the user message
carrying the captured prompt and file metadata, then the settled AI
message (the apology on a throw, the fragment concatenation otherwise);
its title follows the first-message policy; the loading flag is cleared
and the error slot reflects the outcome. -/
theorem sendMessage_shape (now : Nat) (outcome : StreamOutcome) (st : AppState)
    (hpre : ¬ (jsTrimStr st.currentPrompt = "" ∧ st.fileMetadata = none)) :
    ∃ s prior title0,
      activeSession (sendMessage now outcome st) = some s ∧
      s.messages = prior ++
        [ { role := Role.user, text := jsTrimStr st.currentPrompt,
            fileInfo := st.fileMetadata },
          { role := Role.ai,
            text := if outcome.throws then apologyMsg else concatChunks outcome.chunks,
            fileInfo := none } ] ∧
      s.title = (if prior.length = 0 then
          firstMessageTitle (jsTrimStr st.currentPrompt) st.fileMetadata else title0) ∧
      (∀ cs, activeSession st = some cs → prior = cs.messages ∧ title0 = cs.title) ∧
      (activeSession st = none → prior = []) ∧
      (sendMessage now outcome st).isLoading = false ∧
      (sendMessage now outcome st).error =
        (if outcome.throws then some commErrorMsg else none) := by
  obtain ⟨st', sid, prior, title0, created, hph, hactid, herr0, _hload0, _hcp, _haf, _hfm,
    hfind, hsome, hnone⟩ := sendMessagePhase1_spec now st hpre
  have hsend : sendMessage now outcome st = sendMessagePhase2 outcome sid st' := by
    unfold sendMessage
    rw [hph]
  obtain ⟨p2act, p2load, p2err, p2find⟩ := sendMessagePhase2_spec outcome sid st' _ hfind
  have hassoc : prior ++
      [ ({ role := Role.user, text := jsTrimStr st.currentPrompt,
           fileInfo := st.fileMetadata } : ChatMessage),
        { role := Role.ai, text := "", fileInfo := none } ]
      = (prior ++
          [ { role := Role.user, text := jsTrimStr st.currentPrompt,
              fileInfo := st.fileMetadata } ]) ++
        [ { role := Role.ai, text := "", fileInfo := none } ] := by
    simp
  have hmsgs : modifyLastMessage
      (fun m => { m with text :=
        if outcome.throws then apologyMsg
        else m.text ++ concatChunks outcome.chunks })
      (prior ++
        [ { role := Role.user, text := jsTrimStr st.currentPrompt,
            fileInfo := st.fileMetadata },
          { role := Role.ai, text := "", fileInfo := none } ])
      = prior ++
        [ { role := Role.user, text := jsTrimStr st.currentPrompt,
            fileInfo := st.fileMetadata },
          { role := Role.ai,
            text := if outcome.throws then apologyMsg else concatChunks outcome.chunks,
            fileInfo := none } ] := by
    rw [hassoc, modifyLastMessage_append]
    simp [String.empty_append]
  refine ⟨{ id := sid
            title :=
              if prior.length = 0 then
                firstMessageTitle (jsTrimStr st.currentPrompt) st.fileMetadata
              else title0
            messages := prior ++
              [ { role := Role.user, text := jsTrimStr st.currentPrompt,
                  fileInfo := st.fileMetadata },
                { role := Role.ai,
                  text := if outcome.throws then apologyMsg
                    else concatChunks outcome.chunks,
                  fileInfo := none } ]
            createdAt := created },
    prior, title0, ?_, rfl, rfl, hsome, hnone, ?_, ?_⟩
  · rw [hsend]
    unfold activeSession
    rw [p2act, hactid]
    show findSession (sendMessagePhase2 outcome sid st').chatSessions sid = _
    rw [p2find]
    simp only [hmsgs]
  · rw [hsend]
    exact p2load
  · rw [hsend, p2err, herr0]

/-- Last element of a list ending in two explicit entries. -/
theorem getLast_append_two (u aF : ChatMessage) (pr : List ChatMessage) :
    (pr ++ [u, aF]).getLast? = some aF := by
  rw [show pr ++ [u, aF] = (pr ++ [u]) ++ [aF] from by simp, List.getLast?_concat]

/-! ## Claims: streaming send orchestrator -/

/-- C3: whenever the streaming call throws (before or between chunks),
`sendMessage` catches it at the top level: the user-visible error signal
is the single fixed message, the AI placeholder's text is overwritten
with the fixed apology (not any partial concatenation of received
fragments), and the loading flag is cleared. -/
theorem sendMessage_stream_error (now : Nat) (outcome : StreamOutcome) (st : AppState)
    (hpre : ¬ (jsTrimStr st.currentPrompt = "" ∧ st.fileMetadata = none))
    (hthrow : outcome.throws = true) :
    (sendMessage now outcome st).error = some commErrorMsg ∧
    (sendMessage now outcome st).isLoading = false ∧
    ∃ s, activeSession (sendMessage now outcome st) = some s ∧
      s.messages.getLast? =
        some { role := Role.ai, text := apologyMsg, fileInfo := none } := by
  obtain ⟨s, prior, title0, hact, hmsg, _ht, _hs, _hn, hload, herr⟩ :=
    sendMessage_shape now outcome st hpre
  refine ⟨?_, hload, s, hact, ?_⟩
  · rw [herr, hthrow]
    simp
  · rw [hmsg, hthrow]
    simp only [if_pos]
    exact getLast_append_two _ _ _

/-- Witness for C3: a send of "hi" whose stream delivers one fragment
and then throws. -/
theorem sendMessage_stream_error_witness :
    (sendMessage 5 { chunks := ["par"], throws := true }
        { emptyState with currentPrompt := "hi" }).error = some commErrorMsg ∧
    (sendMessage 5 { chunks := ["par"], throws := true }
        { emptyState with currentPrompt := "hi" }).isLoading = false ∧
    ∃ s, activeSession (sendMessage 5 { chunks := ["par"], throws := true }
        { emptyState with currentPrompt := "hi" }) = some s ∧
      s.messages.getLast? =
        some { role := Role.ai, text := apologyMsg, fileInfo := none } :=
  sendMessage_stream_error 5 { chunks := ["par"], throws := true }
    { emptyState with currentPrompt := "hi" } (by decide) rfl

/-- C9: on a send satisfying the precondition, the user message and the
empty AI placeholder are already appended to the active session at the
instant the streaming call begins (phase 1's `ready` state), and after a
successful stream the placeholder's text equals the concatenation of all
streamed fragments in arrival order. -/
theorem sendMessage_success_scenario (now : Nat) (outcome : StreamOutcome)
    (st : AppState)
    (hpre : ¬ (jsTrimStr st.currentPrompt = "" ∧ st.fileMetadata = none))
    (hok : outcome.throws = false) :
    (∃ st' sid s prior,
      sendMessagePhase1 now st = SendResult.ready st' sid ∧
      activeSession st' = some s ∧
      s.messages = prior ++
        [ { role := Role.user, text := jsTrimStr st.currentPrompt,
            fileInfo := st.fileMetadata },
          { role := Role.ai, text := "", fileInfo := none } ] ∧
      (∀ cs, activeSession st = some cs → prior = cs.messages) ∧
      (activeSession st = none → prior = [])) ∧
    ∃ s2, activeSession (sendMessage now outcome st) = some s2 ∧
      s2.messages.getLast? =
        some { role := Role.ai, text := concatChunks outcome.chunks,
               fileInfo := none } := by
  constructor
  · obtain ⟨st', sid, prior, title0, created, hph, hactid, _, _, _, _, _, hfind,
      hsome, hnone⟩ := sendMessagePhase1_spec now st hpre
    have hactive' : activeSession st' = some
        { id := sid
          title :=
            if prior.length = 0 then
              firstMessageTitle (jsTrimStr st.currentPrompt) st.fileMetadata
            else title0
          messages := prior ++
            [ { role := Role.user, text := jsTrimStr st.currentPrompt,
                fileInfo := st.fileMetadata },
              { role := Role.ai, text := "", fileInfo := none } ]
          createdAt := created } := by
      unfold activeSession
      rw [hactid]
      exact hfind
    exact ⟨st', sid, _, prior, hph, hactive', rfl,
      fun cs h => (hsome cs h).1, hnone⟩
  · obtain ⟨s, prior, title0, hact, hmsg, _ht, _hs, _hn, _hl, _he⟩ :=
      sendMessage_shape now outcome st hpre
    refine ⟨s, hact, ?_⟩
    rw [hmsg, hok]
    simp only [Bool.false_eq_true, if_false]
    exact getLast_append_two _ _ _

/-- Witness for C9: sending "Hello" into a fresh state with fragments
"He" and "llo!". -/
theorem sendMessage_success_scenario_witness :
    (∃ st' sid s prior,
      sendMessagePhase1 7 { emptyState with currentPrompt := "Hello" }
        = SendResult.ready st' sid ∧
      activeSession st' = some s ∧
      s.messages = prior ++
        [ { role := Role.user,
            text := jsTrimStr ({ emptyState with
              currentPrompt := "Hello" } : AppState).currentPrompt,
            fileInfo := ({ emptyState with
              currentPrompt := "Hello" } : AppState).fileMetadata },
          { role := Role.ai, text := "", fileInfo := none } ] ∧
      (∀ cs, activeSession { emptyState with currentPrompt := "Hello" } = some cs →
        prior = cs.messages) ∧
      (activeSession { emptyState with currentPrompt := "Hello" } = none →
        prior = [])) ∧
    ∃ s2, activeSession (sendMessage 7 { chunks := ["He", "llo!"], throws := false }
        { emptyState with currentPrompt := "Hello" }) = some s2 ∧
      s2.messages.getLast? =
        some { role := Role.ai,
               text := concatChunks ["He", "llo!"],
               fileInfo := none } :=
  sendMessage_success_scenario 7 { chunks := ["He", "llo!"], throws := false }
    { emptyState with currentPrompt := "Hello" } (by decide) rfl

/-- C5 (amended): the session title is assigned during the send of the
first message — it becomes the first 30 characters of the trimmed
prompt, or, if that is empty, the attached file's name, or, if there is
no attachment **or the attachment's name is the empty string** (the
JavaScript `||` chain treats the empty name as falsy), the generic
placeholder — and every later send on a session that already has
messages leaves the title unchanged (and after any send the session has
messages, so no later send ever changes it). -/
theorem sendMessage_title_policy (now : Nat) (outcome : StreamOutcome) (st : AppState)
    (hpre : ¬ (jsTrimStr st.currentPrompt = "" ∧ st.fileMetadata = none)) :
    ∃ s, activeSession (sendMessage now outcome st) = some s ∧
      s.messages ≠ [] ∧
      s.title = (match activeSession st with
        | some cs =>
          if cs.messages.length = 0 then
            firstMessageTitle (jsTrimStr st.currentPrompt) st.fileMetadata
          else cs.title
        | none => firstMessageTitle (jsTrimStr st.currentPrompt) st.fileMetadata) := by
  obtain ⟨s, prior, title0, hact, hmsg, htitle, hsome, hnone, _hl, _he⟩ :=
    sendMessage_shape now outcome st hpre
  refine ⟨s, hact, ?_, ?_⟩
  · rw [hmsg]
    simp
  · cases hcase : activeSession st with
    | some cs =>
      obtain ⟨hp, ht⟩ := hsome cs hcase
      rw [htitle, hp, ht]
    | none =>
      have hp := hnone hcase
      rw [htitle, hp]
      simp

/-- Witness for C5's amended statement: the first send of "Hello" titles
the fresh session. -/
theorem sendMessage_title_policy_witness :
    ∃ s, activeSession (sendMessage 7 { chunks := [], throws := false }
        { emptyState with currentPrompt := "Hello" }) = some s ∧
      s.messages ≠ [] ∧
      s.title = (match activeSession { emptyState with currentPrompt := "Hello" } with
        | some cs =>
          if cs.messages.length = 0 then
            firstMessageTitle
              (jsTrimStr ({ emptyState with
                currentPrompt := "Hello" } : AppState).currentPrompt)
              ({ emptyState with currentPrompt := "Hello" } : AppState).fileMetadata
          else cs.title
        | none =>
          firstMessageTitle
            (jsTrimStr ({ emptyState with
              currentPrompt := "Hello" } : AppState).currentPrompt)
            ({ emptyState with currentPrompt := "Hello" } : AppState).fileMetadata) :=
  sendMessage_title_policy 7 { chunks := [], throws := false }
    { emptyState with currentPrompt := "Hello" } (by decide)

/-- A file metadata record whose `name` is the empty string (a browser
`File` may carry an empty name). -/
def emptyNameMeta : FileMetadata :=
  { name := ""
    size := 0
    type := "application/octet-stream"
    wordCount := 0
    charCount := 0
    base64Content := some "QQ=="
    pageCount := none }

/-- Counterexample to C5 as stated: with an empty prompt and an attached
file whose name is the empty string, the claim says the title becomes
the attached file's name (the empty string), but the code's `||` chain
treats the empty name as falsy and falls through to the generic
placeholder, so the title is "New Conversation" ≠ "". -/
theorem sendMessage_title_policy_counterexample :
    (activeSession (sendMessage 0 { chunks := [], throws := false }
        { emptyState with fileMetadata := some emptyNameMeta })).map ChatSession.title
      = some genericTitle ∧
    genericTitle ≠ emptyNameMeta.name := by
  constructor
  · decide
  · decide

/-- C10 (frame effect): when a file is already attached and processed
and the user then selects an oversize file, `handleFileChange` sets the
error and clears `attachedFile` but leaves the `fileMetadata` signal
unchanged — so a subsequent `sendMessage` still attaches the earlier
file's metadata to the new user message. -/
theorem oversize_keeps_prior_metadata (st : AppState) (file : BrowserFile)
    (pdfResult : Option Nat) (now : Nat) (outcome : StreamOutcome) (fm : FileMetadata)
    (hm : st.fileMetadata = some fm) (hsize : file.size > 5 * 1024 * 1024) :
    (handleFileChange (some file) pdfResult st).fileMetadata = some fm ∧
    ∃ s prior t, activeSession
        (sendMessage now outcome (handleFileChange (some file) pdfResult st)) = some s ∧
      s.messages = prior ++
        [ { role := Role.user,
            text := jsTrimStr (handleFileChange (some file) pdfResult st).currentPrompt,
            fileInfo := some fm },
          { role := Role.ai, text := t, fileInfo := none } ] := by
  have hm2 : (handleFileChange (some file) pdfResult st).fileMetadata = some fm := by
    rw [show handleFileChange (some file) pdfResult st
        = { st with error := some oversizeMsg, attachedFile := none } from by
      simp [handleFileChange, MAX_FILE_SIZE, hsize]]
    exact hm
  refine ⟨hm2, ?_⟩
  have hpre2 : ¬ (jsTrimStr (handleFileChange (some file) pdfResult st).currentPrompt = ""
      ∧ (handleFileChange (some file) pdfResult st).fileMetadata = none) := by
    intro h
    rw [hm2] at h
    exact Option.noConfusion h.2
  obtain ⟨s, prior, title0, hact, hmsg, _ht, _hs, _hn, _hl, _he⟩ :=
    sendMessage_shape now outcome _ hpre2
  refine ⟨s, prior,
    if outcome.throws then apologyMsg else concatChunks outcome.chunks, hact, ?_⟩
  rw [hmsg, hm2]

/-- A state with a processed attachment already present. -/
def staleMetaState : AppState :=
  { emptyState with currentPrompt := "Q", fileMetadata := some sampleMeta }

/-- Witness for C10: metadata from an earlier small file survives an
oversize re-selection and is attached by the next send. -/
theorem oversize_keeps_prior_metadata_witness :
    (handleFileChange (some bigFile) none staleMetaState).fileMetadata
      = some sampleMeta ∧
    ∃ s prior t, activeSession
        (sendMessage 3 { chunks := ["ok"], throws := false }
          (handleFileChange (some bigFile) none staleMetaState)) = some s ∧
      s.messages = prior ++
        [ { role := Role.user,
            text := jsTrimStr
              (handleFileChange (some bigFile) none staleMetaState).currentPrompt,
            fileInfo := some sampleMeta },
          { role := Role.ai, text := t, fileInfo := none } ] :=
  oversize_keeps_prior_metadata staleMetaState
    bigFile none 3 { chunks := ["ok"], throws := false } sampleMeta rfl (by decide)
